import Mathlib

/-!
# Payroll Computation Engine — shallow embedding

A shallow embedding of `PayrollService.get_payroll_stats`
(`app/services/payroll.py`) of the bijouterie HR/payroll backend, together
with theorems settling the specification claims about it.

Modelling conventions:
* Dates are day numbers (`ℕ`) counted from a fixed Monday epoch, so that
  Python's `date.weekday()` (0 = Monday .. 6 = Sunday) becomes `d % 7`.
  `BETWEEN a AND b` on SQL dates becomes `a ≤ d ∧ d ≤ b`.
* Python `Decimal` amounts are modelled as exact rationals (`ℚ`); the
  service only adds, subtracts, multiplies and divides, and every value the
  claims mention is reproduced exactly by rational arithmetic.
* Rows of the tables touched by the service become structures; enum-valued
  columns (`atype`, `ltype`, loan-schedule `status`, `salary_frequency`)
  are carried as the strings the service compares them against.
* The SQL queries of step 2 of the service (`payroll.py` lines 36-128)
  only filter/aggregate rows; each per-employee list is modelled as the
  corresponding filter of the table.  The `order_by(date)` clauses only
  affect presentation order inside the per-record detail lists and are not
  modelled; no claim concerns that order.
-/

namespace Payroll

/-! ## Data model

`app/models.py` is not part of the sources; the row shapes below are
modelled from the spec's §3 data-model table, restricted to the columns
`get_payroll_stats` reads. -/

/-- Modelled from the spec: Employee (§3) — id, first name, branch
reference, active flag, nullable monthly-equivalent salary, salary
frequency (`monthly`/`weekly`), nullable textual work-days set. -/
structure Employee where
  id : ℕ
  first_name : String
  branch_id : ℕ
  active : Bool
  salary : Option ℚ
  salary_frequency : String
  work_days : Option String
deriving DecidableEq, Repr

/-- Modelled from the spec: AbsenceRecord (§3) — an attendance row; only
rows with `atype = "absent"` count. -/
structure Attendance where
  employee_id : ℕ
  date : ℕ
  atype : String
deriving DecidableEq, Repr

/-- Modelled from the spec: AdvanceRecord / Deposit (§3). -/
structure Deposit where
  employee_id : ℕ
  date : ℕ
  amount : ℚ
deriving DecidableEq, Repr

/-- Modelled from the spec: LeaveRecord (§3) — inclusive span with a leave
type among `paid`/`unpaid`/`sick`/`sick_unpaid`. -/
structure Leave where
  employee_id : ℕ
  start_date : ℕ
  end_date : ℕ
  ltype : String
deriving DecidableEq, Repr

/-- Modelled from the spec: a loan row, linking schedules to an employee. -/
structure Loan where
  id : ℕ
  employee_id : ℕ
deriving DecidableEq, Repr

/-- Modelled from the spec: LoanScheduleEntry (§3) — one installment with
due/paid totals and a status string. -/
structure LoanSchedule where
  loan_id : ℕ
  due_date : ℕ
  due_total : ℚ
  paid_total : ℚ
  status : String
deriving DecidableEq, Repr

/-- Modelled from the spec: SalesRecord (§3) — per-day sales attributed to
an employee. -/
structure SalesSummary where
  employee_id : ℕ
  date : ℕ
  quantity_sold : ℤ
  total_revenue : ℚ
deriving DecidableEq, Repr

/-- The relational store the service queries (read-only). -/
structure DB where
  employees : List Employee
  attendance : List Attendance
  deposits : List Deposit
  leaves : List Leave
  loans : List Loan
  loan_schedules : List LoanSchedule
  sales : List SalesSummary
deriving DecidableEq, Repr

/-! ## Schedule parsing (`payroll.py` lines 140-146)

The service parses `emp.work_days` with
`{int(d) for d in work_days_str.split(',') if d.strip()}` under a bare
`except` falling back to `{0,1,2,3,4,5}`.  Python's `str.split(',')`,
`str.strip()` and `int(...)` are modelled character-by-character below
(`int` restricted to optionally signed ASCII decimal numerals with
surrounding whitespace, the forms that occur here). -/

/-- Python `str.split(',')` on a character list: splits at every comma,
keeping empty pieces (`"".split(',') == ['']`). -/
def splitCommas : List Char → List Char → List (List Char)
  | [], acc => [acc.reverse]
  | c :: rest, acc =>
    if c = ',' then acc.reverse :: splitCommas rest []
    else splitCommas rest (c :: acc)

/-- Python `str.strip()`: drop leading and trailing whitespace. -/
def stripChars (cs : List Char) : List Char :=
  ((cs.dropWhile Char.isWhitespace).reverse.dropWhile Char.isWhitespace).reverse

/-- Value of one ASCII decimal digit, if the character is one. -/
def digitVal (c : Char) : Option ℕ :=
  if '0' ≤ c ∧ c ≤ '9' then some (c.toNat - '0'.toNat) else none

/-- Parse a non-empty all-digit character list as a natural number. -/
def digitsVal : List Char → Option ℕ
  | [] => none
  | [c] => digitVal c
  | c :: rest => do
    let d ← digitVal c
    let r ← digitsVal rest
    pure (d * 10 ^ rest.length + r)

/-- Python `int(token)`: strip whitespace, allow one optional sign, then
require a non-empty digit string; anything else raises (here: `none`). -/
def pyInt (cs : List Char) : Option ℤ :=
  match stripChars cs with
  | '+' :: rest => (digitsVal rest).map Int.ofNat
  | '-' :: rest => (digitsVal rest).map (fun n => -(n : ℤ))
  | t => (digitsVal t).map Int.ofNat

/-- Left-to-right `int(...)` over the kept tokens; the first failure makes
the whole set comprehension raise, as in Python. -/
def pyIntAll : List (List Char) → Option (List ℤ)
  | [] => some []
  | t :: rest => do
    let v ← pyInt t
    let vs ← pyIntAll rest
    pure (v :: vs)

/-- `{int(d) for d in s.split(',') if d.strip()}` as an optional set:
`none` when the comprehension raises. -/
def parseWorkDays (s : String) : Option (Finset ℤ) :=
  (pyIntAll ((splitCommas s.data []).filter
    (fun d => !(stripChars d).isEmpty))).map List.toFinset

/-- The fallback schedule `{0,1,2,3,4,5}` (Monday-Saturday). -/
def fallbackSched : Finset ℤ := {0, 1, 2, 3, 4, 5}

/-- `payroll.py` lines 140-146: default string when the column is missing
or empty (Python falsiness), parse, bare-`except` fallback. -/
def pyScheduledDays (work_days : Option String) : Finset ℤ :=
  let work_days_str :=
    match work_days with
    | none => "0,1,2,3,4,5"
    | some s => if s = "" then "0,1,2,3,4,5" else s
  match parseWorkDays work_days_str with
  | some sched => sched
  | none => fallbackSched

/-! ## Scheduled-day counting (`payroll.py` lines 148-155) -/

/-- The day-by-day loop `while curr <= end: if curr.weekday() in
scheduled_days: count += 1`, over the inclusive range `[s, e]`
(empty when `s > e`). -/
def countScheduled (sched : Finset ℤ) (s e : ℕ) : ℕ :=
  ((List.range' s (e + 1 - s)).filter
    (fun d => decide (((d % 7 : ℕ) : ℤ) ∈ sched))).length

/-! ## The per-employee result (`payroll.py` lines 131-262) -/

/-- The `stats` dictionary appended for each employee
(`payroll.py` lines 239-262). -/
structure PayrollStats where
  salary : ℚ
  base_salary : ℚ
  absences_list : List Attendance
  advances_list : List Deposit
  leaves_list : List Leave
  absences_count : ℕ
  unpaid_leave_days : ℕ
  total_deduction_days : ℕ
  deduction_amount : ℚ
  advances_total : ℚ
  loans_due_total : ℚ
  sales_qty : ℤ
  sales_rev : ℚ
  net_estimated : ℚ
deriving DecidableEq, Repr

/-- One element of the result list: `{"employee": emp, "stats": {...}}`. -/
structure PayrollResult where
  employee : Employee
  stats : PayrollStats
deriving DecidableEq, Repr

/-- Line 134: `salary = emp.salary or Decimal(0)` (a `None` or zero salary
both yield `Decimal(0)`, which is the value 0 either way). -/
def baseSalary (emp : Employee) : ℚ := emp.salary.getD 0

/-- Lines 140-146: the employee's resolved weekly schedule. -/
def schedOf (emp : Employee) : Finset ℤ := pyScheduledDays emp.work_days

/-- Lines 40-53 + 137: the absence query restricted to one employee —
attendance rows of kind `absent` with date in `[s, e]`. -/
def absencesFor (db : DB) (eid s e : ℕ) : List Attendance :=
  db.attendance.filter (fun a =>
    a.employee_id == eid && a.atype == "absent"
      && decide (s ≤ a.date) && decide (a.date ≤ e))

/-- Lines 72-86 + 158: the leave query restricted to one employee — rows
whose *start* date falls in `[s, e]` (the end date is not consulted). -/
def leavesFor (db : DB) (eid s e : ℕ) : List Leave :=
  db.leaves.filter (fun l =>
    l.employee_id == eid
      && decide (s ≤ l.start_date) && decide (l.start_date ≤ e))

/-- Lines 159-167: unpaid-leave days — for each fetched leave of type
`unpaid` or `sick_unpaid`, the scheduled-day count of its **entire**
`[start_date, end_date]` span (the loop does not clamp to the period). -/
def unpaidLeaveDaysFor (db : DB) (s e : ℕ) (emp : Employee) : ℕ :=
  (((leavesFor db emp.id s e).filter
      (fun l => l.ltype == "unpaid" || l.ltype == "sick_unpaid")).map
    (fun l => countScheduled (schedOf emp) l.start_date l.end_date)).sum

/-- Line 171: `total_deduction_days = abs_count + unpaid_leave_days`,
where `abs_count = len(emp_absences)` (line 138, no schedule filter). -/
def totalDeductionDaysFor (db : DB) (s e : ℕ) (emp : Employee) : ℕ :=
  (absencesFor db emp.id s e).length + unpaidLeaveDaysFor db s e emp

/-- Lines 173-192: the exact daily rate.  Monthly: salary divided by the
scheduled days in the period, guarded by both being positive.  Otherwise
(weekly): `salary / 4` divided by the scheduled days per week
(`len(scheduled_days) if scheduled_days else 6`). -/
def dailyRateFor (s e : ℕ) (emp : Employee) : ℚ :=
  if emp.salary_frequency == "monthly" then
    if 0 < countScheduled (schedOf emp) s e ∧ 0 < baseSalary emp then
      baseSalary emp / (countScheduled (schedOf emp) s e : ℚ)
    else 0
  else
    let weekly_base := baseSalary emp / 4
    let days_per_week : ℕ :=
      if (schedOf emp).Nonempty then (schedOf emp).card else 6
    if 0 < days_per_week then weekly_base / (days_per_week : ℚ) else 0

/-- Line 195: `deduction = daily_rate * Decimal(total_deduction_days)`. -/
def deductionFor (db : DB) (s e : ℕ) (emp : Employee) : ℚ :=
  dailyRateFor s e emp * (totalDeductionDaysFor db s e emp : ℚ)

/-- Lines 56-68 + 198: the advance query restricted to one employee. -/
def advancesFor (db : DB) (eid s e : ℕ) : List Deposit :=
  db.deposits.filter (fun d =>
    d.employee_id == eid && decide (s ≤ d.date) && decide (d.date ≤ e))

/-- Line 199: `total_advances = sum(a.amount for a in emp_advances)`. -/
def advancesTotalFor (db : DB) (eid s e : ℕ) : ℚ :=
  ((advancesFor db eid s e).map Deposit.amount).sum

/-- Lines 110-128 + 202: loan dues — schedules of this employee's loans
(joined on the loan primary key), status `pending`/`partial`, due date in
`[s, e]`.  The SQL groups per loan and line 128 re-sums the groups per
employee, which equals this flat sum of `due_total - paid_total`. -/
def loansDueFor (db : DB) (eid s e : ℕ) : ℚ :=
  ((db.loan_schedules.filter (fun ls =>
      (ls.status == "pending" || ls.status == "partial")
        && decide (s ≤ ls.due_date) && decide (ls.due_date ≤ e)
        && db.loans.any (fun ln => ln.id == ls.loan_id
            && ln.employee_id == eid))).map
    (fun ls => ls.due_total - ls.paid_total)).sum

/-- Lines 89-105 + 205: the sales rows of one employee in range. -/
def salesFor (db : DB) (eid s e : ℕ) : List SalesSummary :=
  db.sales.filter (fun sl =>
    sl.employee_id == eid && decide (s ≤ sl.date) && decide (sl.date ≤ e))

/-- Summed quantity; the `.get` default `{"qty": 0, ...}` coincides with
the empty sum. -/
def salesQtyFor (db : DB) (eid s e : ℕ) : ℤ :=
  ((salesFor db eid s e).map SalesSummary.quantity_sold).sum

/-- Summed revenue; the `.get` default `{..., "rev": 0}` coincides with
the empty sum. -/
def salesRevFor (db : DB) (eid s e : ℕ) : ℚ :=
  ((salesFor db eid s e).map SalesSummary.total_revenue).sum

/-- Lines 217-234: gross pay — the full base salary for monthly
employees, `daily_rate * actual_work_days_count` otherwise. -/
def grossPayFor (s e : ℕ) (emp : Employee) : ℚ :=
  if emp.salary_frequency == "monthly" then baseSalary emp
  else dailyRateFor s e emp * (countScheduled (schedOf emp) s e : ℚ)

/-- Line 237: `net_estimated = gross_pay - deduction - total_advances -
loans_due`. -/
def netFor (db : DB) (s e : ℕ) (emp : Employee) : ℚ :=
  grossPayFor s e emp - deductionFor db s e emp
    - advancesTotalFor db emp.id s e - loansDueFor db emp.id s e

/-- The body of the `for emp in employees:` loop (`payroll.py` lines
133-262), assembling the `{"employee": emp, "stats": {...}}` entry
appended at lines 239-262. -/
def payrollEntry (db : DB) (start_date end_date : ℕ) (emp : Employee) :
    PayrollResult :=
  { employee := emp
    stats :=
      { salary := grossPayFor start_date end_date emp
        base_salary := baseSalary emp
        absences_list := absencesFor db emp.id start_date end_date
        advances_list := advancesFor db emp.id start_date end_date
        leaves_list := leavesFor db emp.id start_date end_date
        absences_count := (absencesFor db emp.id start_date end_date).length
        unpaid_leave_days := unpaidLeaveDaysFor db start_date end_date emp
        total_deduction_days := totalDeductionDaysFor db start_date end_date emp
        deduction_amount := deductionFor db start_date end_date emp
        advances_total := advancesTotalFor db emp.id start_date end_date
        loans_due_total := loansDueFor db emp.id start_date end_date
        sales_qty := salesQtyFor db emp.id start_date end_date
        sales_rev := salesRevFor db emp.id start_date end_date
        net_estimated := netFor db start_date end_date emp } }

/-- `payroll.py` lines 25-27: active employees, branch filter applied only
when `branch_id` is truthy (`None` and `0` both skip the filter). -/
def activeEmployees (db : DB) (branch_id : Option ℕ) : List Employee :=
  db.employees.filter (fun emp =>
    emp.active &&
      match branch_id with
      | none => true
      | some bid => bid == 0 || emp.branch_id == bid)

/-- `PayrollService.get_payroll_stats` (`payroll.py` lines 12-264): the
batch computation.  Lines 33-34 return `[]` early for an empty roster;
otherwise every active (branch-filtered) employee produces one entry,
computed over the caller's `[start_date, end_date]`. -/
def getPayrollStats (db : DB) (start_date end_date : ℕ)
    (branch_id : Option ℕ) : List PayrollResult :=
  let employees := activeEmployees db branch_id
  if employees.isEmpty then []
  else employees.map (payrollEntry db start_date end_date)

/-! ## Specification-side definitions

These follow the spec's words, for comparison against the code's
behaviour; they are deliberately *not* read off the implementation. -/

/-- Modelled from the spec (§4.3 step 5, monthly): `daily_rate =
base_salary / scheduled_work_days` if `scheduled_work_days > 0` and
`base_salary > 0`, else 0. -/
def specMonthlyDailyRate (base : ℚ) (swd : ℕ) : ℚ :=
  if 0 < swd ∧ 0 < base then base / (swd : ℚ) else 0

/-- Modelled from the spec (§4.3 step 5, weekly): `weekly_base =
base_salary / 4`; `days_per_week = len(scheduled_weekdays)` (fallback 6 if
empty); `daily_rate = weekly_base / days_per_week` if positive, else 0. -/
def specWeeklyDailyRate (base : ℚ) (sched : Finset ℤ) : ℚ :=
  let weekly_base := base / 4
  let days_per_week : ℕ := if sched = ∅ then 6 else sched.card
  if 0 < days_per_week then weekly_base / (days_per_week : ℚ) else 0

/-- Modelled from the spec (§4.3 step 3): for each qualifying leave, clamp
its span to `[max(leave.start, period.start), min(leave.end, period.end)]`
and count scheduled weekdays inside the clamped span. -/
def specClampedUnpaidLeaveDays (sched : Finset ℤ) (leaves : List Leave)
    (s e : ℕ) : ℕ :=
  ((leaves.filter (fun l => l.ltype == "unpaid" || l.ltype == "sick_unpaid")).map
    (fun l => countScheduled sched (max l.start_date s) (min l.end_date e))).sum

/-- Modelled from the spec (§3, AbsenceRecord invariant): one record = one
deducted day *if its date falls on a scheduled work day*. -/
def specScheduledAbsenceDays (sched : Finset ℤ) (absences : List Attendance) : ℕ :=
  (absences.filter (fun a => decide (((a.date % 7 : ℕ) : ℤ) ∈ sched))).length

/-- Modelled from the spec (§4.4 step 5 / §8 Sorting): non-decreasing by
`(branch_id, first_name)`. -/
def sortedByBranchThenName (rs : List PayrollResult) : Prop :=
  rs.Chain' (fun a b =>
    a.employee.branch_id < b.employee.branch_id
      ∨ (a.employee.branch_id = b.employee.branch_id
          ∧ a.employee.first_name ≤ b.employee.first_name))

/-- The five record sources are all empty for this employee and period
(the situation of claim C10 / the spec's MissingAggregateData). -/
def hasNoRecords (db : DB) (eid s e : ℕ) : Prop :=
  absencesFor db eid s e = [] ∧ advancesFor db eid s e = []
    ∧ leavesFor db eid s e = [] ∧ salesFor db eid s e = []
    ∧ db.loan_schedules.filter (fun ls =>
        (ls.status == "pending" || ls.status == "partial")
          && decide (s ≤ ls.due_date) && decide (ls.due_date ≤ e)
          && db.loans.any (fun ln => ln.id == ls.loan_id
              && ln.employee_id == eid)) = []

/-! ## Basic lemmas -/

/-- The early return for an empty roster coincides with mapping over it:
the batch is always the entry map over the filtered roster. -/
theorem getPayrollStats_eq_map (db : DB) (s e : ℕ) (b : Option ℕ) :
    getPayrollStats db s e b =
      (activeEmployees db b).map (payrollEntry db s e) := by
  unfold getPayrollStats
  cases h : activeEmployees db b <;> simp [h]

/-- Membership in the batch result. -/
theorem mem_getPayrollStats {db : DB} {s e : ℕ} {b : Option ℕ}
    {r : PayrollResult} :
    r ∈ getPayrollStats db s e b ↔
      ∃ emp ∈ activeEmployees db b, payrollEntry db s e emp = r := by
  rw [getPayrollStats_eq_map, List.mem_map]

/-- Each entry carries the employee it was built for. -/
theorem payrollEntry_employee (db : DB) (s e : ℕ) (emp : Employee) :
    (payrollEntry db s e emp).employee = emp := rfl

/-! ## Claim C8 — net pay is the exact, unclamped difference -/

/-- Employee and store used to witness claim C8: a monthly employee with a
salary of 1000 who took a 2000 advance inside the period. -/
def empC8 : Employee :=
  { id := 1, first_name := "N", branch_id := 1, active := true
    salary := some 1000, salary_frequency := "monthly", work_days := none }

def dbC8 : DB :=
  { employees := [empC8], attendance := [], deposits := [⟨1, 5, 2000⟩]
    leaves := [], loans := [], loan_schedules := [], sales := [] }

/-- C8: for every entry of every batch, `net_estimated` equals
`gross_pay - deduction_amount - advances_total - loans_due_total` exactly;
no flooring or clamping at zero is applied anywhere. -/
theorem net_estimated_exact (db : DB) (s e : ℕ) (b : Option ℕ)
    (r : PayrollResult) (hr : r ∈ getPayrollStats db s e b) :
    r.stats.net_estimated =
      r.stats.salary - r.stats.deduction_amount
        - r.stats.advances_total - r.stats.loans_due_total := by
  obtain ⟨emp, -, rfl⟩ := mem_getPayrollStats.mp hr
  rfl

/-- Witness for C8 at a concrete store: the over-advanced employee's net
is the exact difference `1000 - 0 - 2000 - 0 = -1000`, surfaced as a
negative value rather than an error or a clamp to zero. -/
theorem net_estimated_exact_witness :
    payrollEntry dbC8 0 29 empC8 ∈ getPayrollStats dbC8 0 29 none
    ∧ (payrollEntry dbC8 0 29 empC8).stats.net_estimated =
        (payrollEntry dbC8 0 29 empC8).stats.salary
          - (payrollEntry dbC8 0 29 empC8).stats.deduction_amount
          - (payrollEntry dbC8 0 29 empC8).stats.advances_total
          - (payrollEntry dbC8 0 29 empC8).stats.loans_due_total
    ∧ (payrollEntry dbC8 0 29 empC8).stats.net_estimated = -1000
    ∧ (payrollEntry dbC8 0 29 empC8).stats.net_estimated < 0 := by
  have hmem : payrollEntry dbC8 0 29 empC8 ∈ getPayrollStats dbC8 0 29 none := by
    rw [getPayrollStats_eq_map]
    exact List.mem_map_of_mem _ (by simp [activeEmployees, dbC8, empC8])
  have hnet : (payrollEntry dbC8 0 29 empC8).stats.net_estimated = -1000 := by
    show netFor dbC8 0 29 empC8 = -1000
    simp [netFor, grossPayFor, deductionFor, totalDeductionDaysFor,
      unpaidLeaveDaysFor, absencesFor, leavesFor, advancesTotalFor,
      advancesFor, loansDueFor, baseSalary, dbC8, empC8]
    norm_num
  exact ⟨hmem, net_estimated_exact dbC8 0 29 none _ hmem, hnet,
    by rw [hnet]; norm_num⟩

/-! ## Claim C9 — schedule parsing falls back to Monday-Saturday -/

/-- C9: a missing, empty, or unparseable work-days specification yields
the default schedule `{0,1,2,3,4,5}` (Monday-Saturday); the parse failure
is absorbed locally (the resolver is total) and no error escapes. -/
theorem schedule_fallback_default :
    pyScheduledDays none = fallbackSched
    ∧ pyScheduledDays (some "") = fallbackSched
    ∧ ∀ s : String, s ≠ "" → parseWorkDays s = none →
        pyScheduledDays (some s) = fallbackSched := by
  refine ⟨by decide, by decide, fun s hs hp => ?_⟩
  simp [pyScheduledDays, hs, hp]

/-- Witness for C9: the concrete specification `"x,y"` fails to parse and
the resolver returns the default schedule. -/
theorem schedule_fallback_default_witness :
    ("x,y" ≠ "") ∧ parseWorkDays "x,y" = none
      ∧ pyScheduledDays (some "x,y") = fallbackSched :=
  ⟨by decide, by decide,
    schedule_fallback_default.2.2 "x,y" (by decide) (by decide)⟩

/-! ## Claim C5 — monthly pay formulas -/

/-- Employee and store used to witness claim C5: monthly salary 1300,
default Monday-Saturday schedule, two absence records in the period
`[0, 29]` (which contains 26 scheduled days), no advances or loans. -/
def empC5 : Employee :=
  { id := 1, first_name := "M", branch_id := 1, active := true
    salary := some 1300, salary_frequency := "monthly", work_days := none }

def dbC5 : DB :=
  { employees := [empC5]
    attendance := [⟨1, 3, "absent"⟩, ⟨1, 10, "absent"⟩]
    deposits := [], leaves := [], loans := [], loan_schedules := []
    sales := [] }

/-- C5: for every monthly-frequency entry, gross pay is the base salary,
the deduction is `daily_rate * total_deduction_days` with `daily_rate =
base_salary / scheduled_work_days` (0 unless both are positive), and the
net is gross minus deduction, advances and loan dues. -/
theorem monthly_pay_formulas (db : DB) (s e : ℕ) (b : Option ℕ)
    (r : PayrollResult) (hr : r ∈ getPayrollStats db s e b)
    (hf : r.employee.salary_frequency = "monthly") :
    r.stats.salary = r.stats.base_salary
    ∧ r.stats.deduction_amount =
        specMonthlyDailyRate r.stats.base_salary
            (countScheduled (schedOf r.employee) s e)
          * (r.stats.total_deduction_days : ℚ)
    ∧ r.stats.net_estimated =
        r.stats.base_salary
          - specMonthlyDailyRate r.stats.base_salary
              (countScheduled (schedOf r.employee) s e)
            * (r.stats.total_deduction_days : ℚ)
          - r.stats.advances_total - r.stats.loans_due_total := by
  obtain ⟨emp, -, rfl⟩ := mem_getPayrollStats.mp hr
  simp only [payrollEntry] at hf ⊢
  refine ⟨by simp [grossPayFor, hf], ?_, ?_⟩
  · simp [deductionFor, dailyRateFor, specMonthlyDailyRate, hf, baseSalary]
  · simp [netFor, grossPayFor, deductionFor, dailyRateFor,
      specMonthlyDailyRate, hf, baseSalary]

/-- Witness for C5: at the concrete store, the 1300-salary monthly
employee over 26 scheduled days with 2 absence days gets daily rate 50,
deduction 100, gross 1300 and net 1200. -/
theorem monthly_pay_formulas_witness :
    payrollEntry dbC5 0 29 empC5 ∈ getPayrollStats dbC5 0 29 none
    ∧ (payrollEntry dbC5 0 29 empC5).stats.salary =
        (payrollEntry dbC5 0 29 empC5).stats.base_salary
    ∧ countScheduled (schedOf empC5) 0 29 = 26
    ∧ (payrollEntry dbC5 0 29 empC5).stats.total_deduction_days = 2
    ∧ specMonthlyDailyRate 1300 26 = 50
    ∧ (payrollEntry dbC5 0 29 empC5).stats.salary = 1300
    ∧ (payrollEntry dbC5 0 29 empC5).stats.deduction_amount = 100
    ∧ (payrollEntry dbC5 0 29 empC5).stats.net_estimated = 1200 := by
  have hmem : payrollEntry dbC5 0 29 empC5 ∈ getPayrollStats dbC5 0 29 none := by
    rw [getPayrollStats_eq_map]
    exact List.mem_map_of_mem _ (by simp [activeEmployees, dbC5, empC5])
  have h := monthly_pay_formulas dbC5 0 29 none _ hmem rfl
  have hsc : countScheduled (schedOf empC5) 0 29 = 26 := by decide
  have htdd : totalDeductionDaysFor dbC5 0 29 empC5 = 2 := by decide
  have hded : (payrollEntry dbC5 0 29 empC5).stats.deduction_amount = 100 := by
    show deductionFor dbC5 0 29 empC5 = 100
    simp only [deductionFor, dailyRateFor, htdd, hsc]
    norm_num [baseSalary, empC5]
  have hgross : (payrollEntry dbC5 0 29 empC5).stats.salary = 1300 := by
    show grossPayFor 0 29 empC5 = 1300
    simp [grossPayFor, baseSalary, empC5]
  have hnet : (payrollEntry dbC5 0 29 empC5).stats.net_estimated = 1200 := by
    show netFor dbC5 0 29 empC5 = 1200
    simp only [netFor]
    rw [show deductionFor dbC5 0 29 empC5 = 100 from hded]
    simp [grossPayFor, advancesTotalFor, advancesFor, loansDueFor,
      baseSalary, dbC5, empC5]
    norm_num
  exact ⟨hmem, h.1, hsc, htdd, by norm_num [specMonthlyDailyRate],
    hgross, hded, hnet⟩

/-! ## Claim C6 — weekly pay formulas -/

/-- Employee and store used to witness claim C6: weekly frequency,
monthly-equivalent salary 1000, default 6-day schedule, evaluated over one
full calendar week. -/
def empC6 : Employee :=
  { id := 1, first_name := "W", branch_id := 1, active := true
    salary := some 1000, salary_frequency := "weekly", work_days := none }

def dbC6 : DB :=
  { employees := [empC6], attendance := [], deposits := [], leaves := []
    loans := [], loan_schedules := [], sales := [] }

/-- C6: for every weekly-frequency entry, the deduction uses the weekly
daily rate (`base_salary / 4` divided by the schedule size, fallback 6 for
an empty schedule), and gross pay is that rate times the scheduled-day
count of the resolved period. -/
theorem weekly_pay_formulas (db : DB) (s e : ℕ) (b : Option ℕ)
    (r : PayrollResult) (hr : r ∈ getPayrollStats db s e b)
    (hf : r.employee.salary_frequency = "weekly") :
    r.stats.deduction_amount =
        specWeeklyDailyRate r.stats.base_salary (schedOf r.employee)
          * (r.stats.total_deduction_days : ℚ)
    ∧ r.stats.salary =
        specWeeklyDailyRate r.stats.base_salary (schedOf r.employee)
          * (countScheduled (schedOf r.employee) s e : ℚ) := by
  obtain ⟨emp, -, rfl⟩ := mem_getPayrollStats.mp hr
  simp only [payrollEntry] at hf ⊢
  have hm : (emp.salary_frequency == "monthly") = false := by
    rw [hf]; decide
  have hsched : (if (schedOf emp).Nonempty then (schedOf emp).card else 6)
      = (if schedOf emp = ∅ then 6 else (schedOf emp).card) := by
    rcases eq_or_ne (schedOf emp) ∅ with h | h
    · simp [h]
    · simp [h, Finset.nonempty_iff_ne_empty.mpr h]
  constructor
  · simp only [deductionFor, dailyRateFor, specWeeklyDailyRate, hm,
      Bool.false_eq_true, if_false, baseSalary, hsched]
  · simp only [grossPayFor, dailyRateFor, specWeeklyDailyRate, hm,
      Bool.false_eq_true, if_false, baseSalary, hsched]

/-- Witness for C6: monthly-equivalent salary 1000 and a 6-day schedule
over one full week give weekly base 250, daily rate 250/6 and gross pay
exactly 250 (not 1000 and not 250/4). -/
theorem weekly_pay_formulas_witness :
    payrollEntry dbC6 0 6 empC6 ∈ getPayrollStats dbC6 0 6 none
    ∧ (payrollEntry dbC6 0 6 empC6).stats.salary =
        specWeeklyDailyRate (payrollEntry dbC6 0 6 empC6).stats.base_salary
            (schedOf empC6)
          * (countScheduled (schedOf empC6) 0 6 : ℚ)
    ∧ countScheduled (schedOf empC6) 0 6 = 6
    ∧ specWeeklyDailyRate 1000 (schedOf empC6) = 250 / 6
    ∧ (payrollEntry dbC6 0 6 empC6).stats.salary = 250 := by
  have hmem : payrollEntry dbC6 0 6 empC6 ∈ getPayrollStats dbC6 0 6 none := by
    rw [getPayrollStats_eq_map]
    exact List.mem_map_of_mem _ (by simp [activeEmployees, dbC6, empC6])
  have h := weekly_pay_formulas dbC6 0 6 none _ hmem rfl
  have hsched : schedOf empC6 = fallbackSched := by decide
  have hcount : countScheduled (schedOf empC6) 0 6 = 6 := by decide
  have hcard : (fallbackSched.card : ℚ) = 6 := by decide
  have hrate : specWeeklyDailyRate 1000 (schedOf empC6) = 250 / 6 := by
    rw [hsched]
    rw [specWeeklyDailyRate]
    norm_num [show fallbackSched ≠ ∅ from by decide,
      show fallbackSched.card = 6 from by decide]
  have hgross : (payrollEntry dbC6 0 6 empC6).stats.salary = 250 := by
    have hb : (payrollEntry dbC6 0 6 empC6).stats.base_salary = 1000 := rfl
    rw [h.2, payrollEntry_employee, hb, hrate, hcount]
    norm_num
  exact ⟨hmem, by rw [h.2, payrollEntry_employee], hcount, hrate, hgross⟩

/-! ## Claim C1 — which period does the batch use? -/

/-- Employee and store used for claim C1: a weekly-frequency employee with
monthly-equivalent salary 1000 and the default 6-day schedule. -/
def empC1 : Employee :=
  { id := 1, first_name := "W", branch_id := 1, active := true
    salary := some 1000, salary_frequency := "weekly", work_days := none }

def dbC1 : DB :=
  { employees := [empC1], attendance := [], deposits := [], leaves := []
    loans := [], loan_schedules := [], sales := [] }

/-- Counterexample to C1 as stated: the weekly employee's gross pay is 250
when the caller requests the one-week range `[0, 6]` but 500 when the
caller requests the two-week range `[0, 13]`.  Were weekly employees
evaluated over a period forced to the current calendar week — a window
independent of the request — both calls would return identical stats. -/
theorem weekly_group_varies_with_caller_range :
    (getPayrollStats dbC1 0 6 none).map (fun r => r.stats.salary) = [250]
    ∧ (getPayrollStats dbC1 0 13 none).map (fun r => r.stats.salary) = [500]
    ∧ ((250 : ℚ) ≠ 500) := by
  have hroster : activeEmployees dbC1 none = [empC1] := rfl
  have hm : (empC1.salary_frequency == "monthly") = false := by decide
  have hdpw : (if (schedOf empC1).Nonempty then (schedOf empC1).card else 6) = 6 := by
    decide
  have hrate : dailyRateFor 0 6 empC1 = 250 / 6 := by
    simp only [dailyRateFor, hm, Bool.false_eq_true, if_false, hdpw]
    norm_num [baseSalary, empC1]
  have hrate' : dailyRateFor 0 13 empC1 = 250 / 6 := by
    simp only [dailyRateFor, hm, Bool.false_eq_true, if_false, hdpw]
    norm_num [baseSalary, empC1]
  refine ⟨?_, ?_, by norm_num⟩
  · rw [getPayrollStats_eq_map, hroster]
    simp only [List.map_cons, List.map_nil, List.cons.injEq, and_true]
    show grossPayFor 0 6 empC1 = 250
    rw [grossPayFor, if_neg (by simp [hm]), hrate,
      show countScheduled (schedOf empC1) 0 6 = 6 from by decide]
    norm_num
  · rw [getPayrollStats_eq_map, hroster]
    simp only [List.map_cons, List.map_nil, List.cons.injEq, and_true]
    show grossPayFor 0 13 empC1 = 500
    rw [grossPayFor, if_neg (by simp [hm]), hrate',
      show countScheduled (schedOf empC1) 0 13 = 12 from by decide]
    norm_num

/-- C1 (amended): in the batch computation every employee — weekly as well
as monthly — is evaluated over the caller's requested
`[report_start, report_end]` verbatim: the record lists are the
period-filtered queries for that range and gross pay uses the
scheduled-day count of that range.  (The current-calendar-week forcing
exists only in the single-employee summary view of `main.py`, not in the
batch.) -/
theorem batch_uses_caller_range (db : DB) (s e : ℕ) (b : Option ℕ)
    (r : PayrollResult) (hr : r ∈ getPayrollStats db s e b) :
    r.stats.absences_list = absencesFor db r.employee.id s e
    ∧ r.stats.advances_list = advancesFor db r.employee.id s e
    ∧ r.stats.leaves_list = leavesFor db r.employee.id s e
    ∧ (r.employee.salary_frequency = "monthly" →
        r.stats.salary = baseSalary r.employee)
    ∧ (r.employee.salary_frequency ≠ "monthly" →
        r.stats.salary =
          dailyRateFor s e r.employee
            * (countScheduled (schedOf r.employee) s e : ℚ)) := by
  obtain ⟨emp, -, rfl⟩ := mem_getPayrollStats.mp hr
  simp only [payrollEntry_employee]
  refine ⟨rfl, rfl, rfl, fun hf => ?_, fun hf => ?_⟩
  · show grossPayFor s e emp = baseSalary emp
    simp [grossPayFor, hf]
  · show grossPayFor s e emp = _
    simp [grossPayFor, beq_eq_false_iff_ne.mpr hf]

/-- Witness for the amended C1 at a concrete store: the weekly employee's
entry for the caller range `[0, 6]` satisfies all five clauses, and in
particular its gross pay is `daily_rate * scheduled-days-of-[0,6]`. -/
theorem batch_uses_caller_range_witness :
    payrollEntry dbC1 0 6 empC1 ∈ getPayrollStats dbC1 0 6 none
    ∧ (payrollEntry dbC1 0 6 empC1).stats.leaves_list = leavesFor dbC1 1 0 6
    ∧ (payrollEntry dbC1 0 6 empC1).stats.salary =
        dailyRateFor 0 6 empC1 * (countScheduled (schedOf empC1) 0 6 : ℚ) := by
  have hmem : payrollEntry dbC1 0 6 empC1 ∈ getPayrollStats dbC1 0 6 none := by
    rw [getPayrollStats_eq_map]
    exact List.mem_map_of_mem _ (by simp [activeEmployees, dbC1, empC1])
  have h := batch_uses_caller_range dbC1 0 6 none _ hmem
  exact ⟨hmem, h.2.2.1, h.2.2.2.2 (by decide)⟩

/-! ## Claim C2 — leave spans are not clamped to the period -/

/-- Employee and store used for claim C2: default schedule, one `unpaid`
leave spanning `[4, 8]`, which starts inside the report period `[0, 6]`
(a Monday-to-Sunday week) but ends two scheduled days after it. -/
def empC2 : Employee :=
  { id := 1, first_name := "L", branch_id := 1, active := true
    salary := some 1300, salary_frequency := "monthly", work_days := none }

def dbC2 : DB :=
  { employees := [empC2], attendance := [], deposits := []
    leaves := [⟨1, 4, 8, "unpaid"⟩], loans := [], loan_schedules := []
    sales := [] }

/-- Counterexample to C2 as stated: for the leave `[4, 8]` inside period
`[0, 6]`, the code deducts 4 days (all scheduled days of the full span:
days 4, 5, 7, 8) while the clamped count of the spec is 2 (days 4, 5);
the scheduled days 7 and 8 lie outside the period yet are deducted. -/
theorem unpaid_leave_not_clamped_cex :
    (getPayrollStats dbC2 0 6 none).map (fun r => r.stats.unpaid_leave_days)
      = [4]
    ∧ specClampedUnpaidLeaveDays fallbackSched (leavesFor dbC2 1 0 6) 0 6 = 2
    ∧ (4 : ℕ) ≠ 2 :=
  ⟨by decide, by decide, by decide⟩

/-- C2 (amended): for every leave record of type `unpaid` or `sick_unpaid`
fetched for the period (i.e. starting inside it), the unpaid-leave-day
contribution counts the scheduled weekdays of the leave's **entire**
`[start, end]` span, with no clamping to the aggregation period: scheduled
days of the leave lying outside the period are deducted as well. -/
theorem unpaid_leave_full_span (db : DB) (s e : ℕ) (b : Option ℕ)
    (r : PayrollResult) (hr : r ∈ getPayrollStats db s e b) :
    r.stats.unpaid_leave_days =
      ((r.stats.leaves_list.filter
          (fun l => l.ltype == "unpaid" || l.ltype == "sick_unpaid")).map
        (fun l => countScheduled (schedOf r.employee) l.start_date l.end_date)).sum := by
  obtain ⟨emp, -, rfl⟩ := mem_getPayrollStats.mp hr
  rfl

/-- Witness for the amended C2: at the concrete store the full-span sum
evaluates to 4 unpaid-leave days. -/
theorem unpaid_leave_full_span_witness :
    payrollEntry dbC2 0 6 empC2 ∈ getPayrollStats dbC2 0 6 none
    ∧ (payrollEntry dbC2 0 6 empC2).stats.unpaid_leave_days =
        (((payrollEntry dbC2 0 6 empC2).stats.leaves_list.filter
            (fun l => l.ltype == "unpaid" || l.ltype == "sick_unpaid")).map
          (fun l => countScheduled (schedOf (payrollEntry dbC2 0 6 empC2).employee)
            l.start_date l.end_date)).sum
    ∧ (payrollEntry dbC2 0 6 empC2).stats.unpaid_leave_days = 4 := by
  have hmem : payrollEntry dbC2 0 6 empC2 ∈ getPayrollStats dbC2 0 6 none := by
    rw [getPayrollStats_eq_map]
    exact List.mem_map_of_mem _ (by simp [activeEmployees, dbC2, empC2])
  exact ⟨hmem, unpaid_leave_full_span dbC2 0 6 none _ hmem, by decide⟩

/-! ## Claim C3 — absences count whether scheduled or not -/

/-- Employee and store used for claim C3: default Monday-Saturday
schedule and a single absence record dated on day 6, a Sunday — a day
outside the scheduled weekday set. -/
def empC3 : Employee :=
  { id := 1, first_name := "A", branch_id := 1, active := true
    salary := some 1300, salary_frequency := "monthly", work_days := none }

def dbC3 : DB :=
  { employees := [empC3], attendance := [⟨1, 6, "absent"⟩], deposits := []
    leaves := [], loans := [], loan_schedules := [], sales := [] }

/-- Counterexample to C3 as stated: the Sunday absence of a
Monday-Saturday employee contributes a deducted day (the code counts every
fetched absence record), while the spec's schedule-aware count of the same
records is 0. -/
theorem absence_schedule_ignored_cex :
    (getPayrollStats dbC3 0 6 none).map (fun r => r.stats.total_deduction_days)
      = [1]
    ∧ specScheduledAbsenceDays fallbackSched (absencesFor dbC3 1 0 6) = 0
    ∧ (1 : ℕ) ≠ 0 :=
  ⟨by decide, by decide, by decide⟩

/-- C3 (amended): every absence record of kind `absent` dated within the
period contributes exactly one deducted day, **regardless** of whether its
date falls on a scheduled work day of the employee;
`total_deduction_days` is that record count plus the unpaid-leave days. -/
theorem every_absence_counts (db : DB) (s e : ℕ) (b : Option ℕ)
    (r : PayrollResult) (hr : r ∈ getPayrollStats db s e b) :
    r.stats.absences_count = (absencesFor db r.employee.id s e).length
    ∧ r.stats.total_deduction_days =
        r.stats.absences_count + r.stats.unpaid_leave_days := by
  obtain ⟨emp, -, rfl⟩ := mem_getPayrollStats.mp hr
  exact ⟨rfl, rfl⟩

/-- Witness for the amended C3: the unscheduled Sunday absence still
yields `absences_count = 1` and `total_deduction_days = 1`. -/
theorem every_absence_counts_witness :
    payrollEntry dbC3 0 6 empC3 ∈ getPayrollStats dbC3 0 6 none
    ∧ (payrollEntry dbC3 0 6 empC3).stats.absences_count =
        (absencesFor dbC3 (payrollEntry dbC3 0 6 empC3).employee.id 0 6).length
    ∧ (payrollEntry dbC3 0 6 empC3).stats.absences_count = 1
    ∧ (payrollEntry dbC3 0 6 empC3).stats.total_deduction_days = 1 := by
  have hmem : payrollEntry dbC3 0 6 empC3 ∈ getPayrollStats dbC3 0 6 none := by
    rw [getPayrollStats_eq_map]
    exact List.mem_map_of_mem _ (by simp [activeEmployees, dbC3, empC3])
  exact ⟨hmem, (every_absence_counts dbC3 0 6 none _ hmem).1, by decide,
    by decide⟩

/-! ## Claim C4 — the batch result is not sorted -/

/-- Two employees used for claim C4, stored in an order that violates the
`(branch_id, first_name)` order: branch 2 "B" before branch 1 "A". -/
def empC4a : Employee :=
  { id := 1, first_name := "B", branch_id := 2, active := true
    salary := some 100, salary_frequency := "monthly", work_days := none }

def empC4b : Employee :=
  { id := 2, first_name := "A", branch_id := 1, active := true
    salary := some 100, salary_frequency := "monthly", work_days := none }

def dbC4 : DB :=
  { employees := [empC4a, empC4b], attendance := [], deposits := []
    leaves := [], loans := [], loan_schedules := [], sales := [] }

/-- Counterexample to C4 as stated: with the roster stored as
`[(branch 2, "B"), (branch 1, "A")]` the batch result keeps that order,
which is not non-decreasing by `(branch_id, first_name)` — no sort is
applied anywhere in `get_payroll_stats` or its caller. -/
theorem batch_not_sorted_cex :
    (getPayrollStats dbC4 0 6 none).map
        (fun r => (r.employee.branch_id, r.employee.first_name))
      = [(2, "B"), (1, "A")]
    ∧ ¬ sortedByBranchThenName (getPayrollStats dbC4 0 6 none) := by
  have hroster : activeEmployees dbC4 none = [empC4a, empC4b] := rfl
  constructor
  · rw [getPayrollStats_eq_map, hroster]
    rfl
  · rw [getPayrollStats_eq_map, hroster]
    intro h
    rcases (List.chain'_cons.mp h).1 with h1 | ⟨h2, -⟩
    · exact absurd h1 (by decide)
    · exact absurd h2 (by decide)

/-- C4 (amended): the batch result list is the per-employee entries in
exactly the order the active (branch-filtered) employees were fetched;
no `(branch_id, first_name)` sorting is performed. -/
theorem batch_order_roster (db : DB) (s e : ℕ) (b : Option ℕ) :
    (getPayrollStats db s e b).map PayrollResult.employee
      = activeEmployees db b := by
  rw [getPayrollStats_eq_map, List.map_map]
  have h : PayrollResult.employee ∘ payrollEntry db s e = id := rfl
  rw [h, List.map_id]

/-! ## Claim C7 — degenerate periods and zero scheduled days -/

/-- Employee and store used for the C7 counterexample: weekly frequency,
salary 1000, Monday-Saturday schedule, an absence recorded on day 6
(a Sunday), and the one-day report period `[6, 6]` containing zero
scheduled days. -/
def empC7 : Employee :=
  { id := 1, first_name := "S", branch_id := 1, active := true
    salary := some 1000, salary_frequency := "weekly", work_days := none }

def dbC7 : DB :=
  { employees := [empC7], attendance := [⟨1, 6, "absent"⟩], deposits := []
    leaves := [], loans := [], loan_schedules := [], sales := [] }

/-- Counterexample to C7 as stated: over the Sunday-only period `[6, 6]`
the employee has `scheduled_work_days = 0`, yet the weekly daily rate is
`(1000/4)/6 = 125/3 ≠ 0` and the Sunday absence makes
`deduction_amount = 125/3 ≠ 0`. -/
theorem weekly_nonzero_deduction_cex :
    countScheduled (schedOf empC7) 6 6 = 0
    ∧ (getPayrollStats dbC7 6 6 none).map (fun r => r.stats.deduction_amount)
        = [125 / 3]
    ∧ ((125 / 3 : ℚ) ≠ 0) := by
  refine ⟨by decide, ?_, by norm_num⟩
  rw [getPayrollStats_eq_map, show activeEmployees dbC7 none = [empC7] from rfl]
  simp only [List.map_cons, List.map_nil, List.cons.injEq, and_true]
  show deductionFor dbC7 6 6 empC7 = 125 / 3
  have hm : (empC7.salary_frequency == "monthly") = false := by decide
  have hdpw : (if (schedOf empC7).Nonempty then (schedOf empC7).card else 6)
      = 6 := by decide
  have htdd : totalDeductionDaysFor dbC7 6 6 empC7 = 1 := by decide
  simp only [deductionFor, dailyRateFor, hm, Bool.false_eq_true, if_false,
    hdpw, htdd]
  norm_num [baseSalary, empC7]

/-- Employee and store used to witness the amended C7: a monthly employee
evaluated over the inverted period `[7, 3]`, with an unrelated unpaid
leave outside it. -/
def empC7w : Employee :=
  { id := 1, first_name := "D", branch_id := 1, active := true
    salary := some 1300, salary_frequency := "monthly", work_days := none }

def dbC7w : DB :=
  { employees := [empC7w], attendance := [], deposits := []
    leaves := [⟨1, 10, 12, "unpaid"⟩], loans := [], loan_schedules := []
    sales := [] }

/-- C7 (amended): an inverted period (`start > end`) yields
`scheduled_work_days = 0` and `unpaid_leave_days = 0` without error; and
for **monthly**-frequency employees `scheduled_work_days = 0` forces
`daily_rate = 0` and `deduction_amount = 0` (the guard avoids the
division).  For weekly-frequency employees the daily rate is
`(salary/4) / days_per_week`, independent of `scheduled_work_days`, so it
need not vanish. -/
theorem degenerate_period_safe (db : DB) (s e : ℕ) (b : Option ℕ) :
    (∀ sched : Finset ℤ, e < s → countScheduled sched s e = 0)
    ∧ (∀ r ∈ getPayrollStats db s e b, e < s →
        r.stats.unpaid_leave_days = 0)
    ∧ (∀ r ∈ getPayrollStats db s e b,
        r.employee.salary_frequency = "monthly" →
        countScheduled (schedOf r.employee) s e = 0 →
          dailyRateFor s e r.employee = 0
            ∧ r.stats.deduction_amount = 0) := by
  refine ⟨?_, ?_, ?_⟩
  · intro sched h
    simp [countScheduled, Nat.sub_eq_zero_of_le h]
  · intro r hr h
    obtain ⟨emp, -, rfl⟩ := mem_getPayrollStats.mp hr
    show unpaidLeaveDaysFor db s e emp = 0
    have hleaves : leavesFor db emp.id s e = [] := by
      rw [leavesFor, List.filter_eq_nil_iff]
      intro l hl
      simp only [Bool.and_eq_true, decide_eq_true_eq, beq_iff_eq, not_and]
      omega
    rw [unpaidLeaveDaysFor, hleaves]
    rfl
  · intro r hr hf hc
    obtain ⟨emp, -, rfl⟩ := mem_getPayrollStats.mp hr
    simp only [payrollEntry_employee] at hf hc
    have hrate : dailyRateFor s e emp = 0 := by
      simp [dailyRateFor, hf, hc]
    refine ⟨hrate, ?_⟩
    show deductionFor db s e emp = 0
    simp [deductionFor, hrate]

/-- Witness for the amended C7 at the inverted period `[7, 3]`: zero
scheduled days, zero unpaid-leave days, zero daily rate and zero
deduction. -/
theorem degenerate_period_safe_witness :
    countScheduled (schedOf empC7w) 7 3 = 0
    ∧ payrollEntry dbC7w 7 3 empC7w ∈ getPayrollStats dbC7w 7 3 none
    ∧ (payrollEntry dbC7w 7 3 empC7w).stats.unpaid_leave_days = 0
    ∧ dailyRateFor 7 3 empC7w = 0
    ∧ (payrollEntry dbC7w 7 3 empC7w).stats.deduction_amount = 0 := by
  have hmem : payrollEntry dbC7w 7 3 empC7w ∈ getPayrollStats dbC7w 7 3 none := by
    rw [getPayrollStats_eq_map]
    exact List.mem_map_of_mem _ (by simp [activeEmployees, dbC7w, empC7w])
  have h := degenerate_period_safe dbC7w 7 3 none
  have h3 := h.2.2 _ hmem rfl (by decide)
  exact ⟨h.1 _ (by decide), hmem, h.2.1 _ hmem (by decide), h3.1, h3.2⟩

/-! ## Claim C10 — exactly one entry per employee, zeros when no records -/

/-- Employee and store used to witness claim C10: one active employee with
one record in every source, all dated on day 50, far outside the report
period `[0, 6]`. -/
def empC10 : Employee :=
  { id := 1, first_name := "E", branch_id := 1, active := true
    salary := some 900, salary_frequency := "monthly", work_days := none }

def dbC10 : DB :=
  { employees := [empC10]
    attendance := [⟨1, 50, "absent"⟩]
    deposits := [⟨1, 50, 30⟩]
    leaves := [⟨1, 50, 52, "unpaid"⟩]
    loans := [⟨1, 1⟩]
    loan_schedules := [⟨1, 50, 100, 0, "pending"⟩]
    sales := [⟨1, 50, 3, 99⟩] }

/-- C10: the batch returns exactly one entry per active (branch-filtered)
employee, in roster order — none dropped, none duplicated — and an
employee with no records in any of the five sources for the period gets
empty record lists and zero counts and totals. -/
theorem one_entry_per_employee (db : DB) (s e : ℕ) (b : Option ℕ) :
    (getPayrollStats db s e b).map PayrollResult.employee
      = activeEmployees db b
    ∧ ∀ r ∈ getPayrollStats db s e b, hasNoRecords db r.employee.id s e →
        r.stats.absences_list = [] ∧ r.stats.advances_list = []
        ∧ r.stats.leaves_list = [] ∧ r.stats.absences_count = 0
        ∧ r.stats.unpaid_leave_days = 0 ∧ r.stats.total_deduction_days = 0
        ∧ r.stats.deduction_amount = 0 ∧ r.stats.advances_total = 0
        ∧ r.stats.loans_due_total = 0 ∧ r.stats.sales_qty = 0
        ∧ r.stats.sales_rev = 0 := by
  constructor
  · rw [getPayrollStats_eq_map, List.map_map]
    have h : PayrollResult.employee ∘ payrollEntry db s e = id := rfl
    rw [h, List.map_id]
  · intro r hr hnr
    obtain ⟨emp, -, rfl⟩ := mem_getPayrollStats.mp hr
    simp only [payrollEntry_employee] at hnr
    obtain ⟨ha, hadv, hl, hsl, hls⟩ := hnr
    have habs : (absencesFor db emp.id s e).length = 0 := by rw [ha]; rfl
    have hu : unpaidLeaveDaysFor db s e emp = 0 := by
      rw [unpaidLeaveDaysFor, hl]; rfl
    have htdd : totalDeductionDaysFor db s e emp = 0 := by
      rw [totalDeductionDaysFor, habs, hu]
    refine ⟨ha, hadv, hl, habs, hu, htdd, ?_, ?_, ?_, ?_, ?_⟩
    · show deductionFor db s e emp = 0
      rw [deductionFor, htdd]
      simp
    · show advancesTotalFor db emp.id s e = 0
      rw [advancesTotalFor, hadv]; rfl
    · show loansDueFor db emp.id s e = 0
      rw [loansDueFor, hls]; rfl
    · show salesQtyFor db emp.id s e = 0
      rw [salesQtyFor, hsl]; rfl
    · show salesRevFor db emp.id s e = 0
      rw [salesRevFor, hsl]; rfl

/-- Witness for C10: the record-free-in-period employee still produces an
entry, whose lists are empty and whose totals are all zero. -/
theorem one_entry_per_employee_witness :
    (getPayrollStats dbC10 0 6 none).map PayrollResult.employee
      = activeEmployees dbC10 none
    ∧ payrollEntry dbC10 0 6 empC10 ∈ getPayrollStats dbC10 0 6 none
    ∧ hasNoRecords dbC10 (payrollEntry dbC10 0 6 empC10).employee.id 0 6
    ∧ (payrollEntry dbC10 0 6 empC10).stats.absences_list = []
    ∧ (payrollEntry dbC10 0 6 empC10).stats.deduction_amount = 0
    ∧ (payrollEntry dbC10 0 6 empC10).stats.loans_due_total = 0 := by
  have hmem : payrollEntry dbC10 0 6 empC10 ∈ getPayrollStats dbC10 0 6 none := by
    rw [getPayrollStats_eq_map]
    exact List.mem_map_of_mem _ (by simp [activeEmployees, dbC10, empC10])
  have hnr : hasNoRecords dbC10 (payrollEntry dbC10 0 6 empC10).employee.id 0 6 :=
    ⟨by decide, by decide, by decide, by decide, by decide⟩
  have h := one_entry_per_employee dbC10 0 6 none
  have hz := h.2 _ hmem hnr
  exact ⟨h.1, hmem, hnr, hz.1, hz.2.2.2.2.2.2.1, hz.2.2.2.2.2.2.2.2.1⟩

end Payroll
